import Mathlib

/-!
Verification of the ismn metadata-indexing engine (filehandlers.py,
filecollection.py, old_filecollection.py) against its design specification.

Shallow embedding conventions:
* network and station names are abstracted as naturals where only their
  ordering and equality matter (the fan-in sort of `build_from_scratch`);
  elsewhere strings are kept;
* float values from the source are modelled as rationals (`ℚ`), with the
  IEEE infinities used by `check_metadata` made explicit in a dedicated type;
* Python exceptions are modelled with `Except`/explicit result constructors:
  an `Except.error` is an exception that escapes the modelled code region;
* code of the repository that lives in modules not present in the sources
  (`ismn/meta.py`, `ismn/tables.py`/`const.py`, `repurpose.process`) is
  modelled from the specification; each such definition carries a doc
  comment starting with `Modelled from the spec:`.
-/

/-! ## Dialect classification (`DataFile.read_metadata`, filehandlers.py 608-626) -/

/-- File type tag stored in `DataFile.file_type`. -/
inductive FileType
  | undefined
  | ceop
  | ceop_sep
  | header_values
deriving DecidableEq, Repr

/-- Outcome of the dialect-classification chain of `DataFile.read_metadata`:
either a supported dialect is selected, or the legacy `ceop` shape is
recognised and a `RuntimeError` is raised, or an `IOError` is raised for an
unrecognised shape. -/
inductive DialectResult
  | ok (ft : FileType)
  | ceopUnsupported
  | unknownFormat
deriving DecidableEq, Repr

/-- The classification chain of `DataFile.read_metadata`, a function of the
header-line token count `h` (`len(headr)`) and the filename token count `n`
(`len(fname)`) alone:

    if len(fname) == 5 and len(headr) == 16: file_type = 'ceop'; raise RuntimeError
    elif len(headr) == 15 and len(fname) >= 9: ceop_sep
    elif len(headr) < 14 and len(fname) >= 9: header_values
    else: raise IOError
-/
def classifyDialect (h n : Nat) : DialectResult :=
  if n = 5 ∧ h = 16 then .ceopUnsupported
  else if h = 15 ∧ 9 ≤ n then .ok .ceop_sep
  else if h < 14 ∧ 9 ≤ n then .ok .header_values
  else .unknownFormat

/-- C1: the dialect classification of `DataFile.read_metadata` is a function
of the header-line token count `h` and the filename token count `n` alone:
`n = 5 ∧ h = 16` classifies as the legacy `ceop` dialect and raises a hard
failure, `h = 15 ∧ n ≥ 9` classifies as `ceop_sep`, `h < 14 ∧ n ≥ 9`
classifies as `header_values`, every other shape raises a hard failure, and
identical shapes always classify identically. -/
theorem classifyDialect_shape_function :
    (∀ h n, n = 5 ∧ h = 16 → classifyDialect h n = .ceopUnsupported) ∧
    (∀ h n, h = 15 ∧ 9 ≤ n → classifyDialect h n = .ok .ceop_sep) ∧
    (∀ h n, h < 14 ∧ 9 ≤ n → classifyDialect h n = .ok .header_values) ∧
    (∀ h n, ¬(n = 5 ∧ h = 16) → ¬(h = 15 ∧ 9 ≤ n) → ¬(h < 14 ∧ 9 ≤ n) →
      classifyDialect h n = .unknownFormat) ∧
    (∀ h n h' n', h = h' → n = n' → classifyDialect h n = classifyDialect h' n') := by
  refine ⟨?_, ?_, ?_, ?_, ?_⟩
  · intro h n hc
    simp only [classifyDialect, if_pos hc]
  · intro h n hc
    have h1 : ¬(n = 5 ∧ h = 16) := by omega
    simp only [classifyDialect, if_neg h1, if_pos hc]
  · intro h n hc
    have h1 : ¬(n = 5 ∧ h = 16) := by omega
    have h2 : ¬(h = 15 ∧ 9 ≤ n) := by omega
    simp only [classifyDialect, if_neg h1, if_neg h2, if_pos hc]
  · intro h n h1 h2 h3
    simp only [classifyDialect, if_neg h1, if_neg h2, if_neg h3]
  · intro h n h' n' he hn
    rw [he, hn]

/-- Witness: the three supported/unsupported shapes evaluated concretely
through `classifyDialect_shape_function`. -/
theorem classifyDialect_shape_function_witness :
    ((5 = 5 ∧ 16 = 16) ∧ classifyDialect 16 5 = .ceopUnsupported) ∧
    ((15 = 15 ∧ 9 ≤ 10) ∧ classifyDialect 15 10 = .ok .ceop_sep) ∧
    ((13 < 14 ∧ 9 ≤ 9) ∧ classifyDialect 13 9 = .ok .header_values) :=
  ⟨⟨by decide, classifyDialect_shape_function.1 16 5 (by decide)⟩,
   ⟨by decide, classifyDialect_shape_function.2.1 15 10 (by decide)⟩,
   ⟨by decide, classifyDialect_shape_function.2.2.1 13 9 (by decide)⟩⟩

/-! ## `IsmnFileCollection.get_filehandler` (filecollection.py 456-478) -/

/-- The loop of `get_filehandler`: `fs` accumulates the number of handlers of
the networks already passed; as soon as `fs + len(files) > idx` the handler
`files[idx - fs]` is returned, otherwise the loop falls through and the
function implicitly returns `None`. The mapping is the ordered
`filelist` (network name, handlers of that network). -/
def getFilehandlerLoop (idx : Nat) : Nat → List (String × List Nat) → Option Nat
  | _, [] => none
  | fs, (_, files) :: rest =>
    if fs + files.length > idx then files[idx - fs]?
    else getFilehandlerLoop idx (fs + files.length) rest

/-- `IsmnFileCollection.get_filehandler(idx)` over an ordered filelist. -/
def get_filehandler (filelist : List (String × List Nat)) (idx : Nat) : Option Nat :=
  getFilehandlerLoop idx 0 filelist

/-- All handlers of the collection in global order (network order of the
filelist, handler order within each network). -/
def globalFilehandlers (filelist : List (String × List Nat)) : List Nat :=
  (filelist.map Prod.snd).flatten

theorem getFilehandlerLoop_eq (idx : Nat) :
    ∀ (filelist : List (String × List Nat)) (fs : Nat), fs ≤ idx →
      getFilehandlerLoop idx fs filelist = (globalFilehandlers filelist)[idx - fs]?
  | [], fs, _ => by simp [getFilehandlerLoop, globalFilehandlers]
  | (net, files) :: rest, fs, hfs => by
    simp only [getFilehandlerLoop, globalFilehandlers, List.map_cons, List.flatten_cons]
    by_cases hc : fs + files.length > idx
    · rw [if_pos hc]
      have hlt : idx - fs < files.length := by omega
      rw [List.getElem?_append, if_pos hlt]
    · rw [if_neg hc]
      have h1 : fs + files.length ≤ idx := by omega
      rw [getFilehandlerLoop_eq idx rest (fs + files.length) h1]
      have h2 : ¬(idx - fs < files.length) := by omega
      rw [List.getElem?_append, if_neg h2]
      have h3 : idx - fs - files.length = idx - (fs + files.length) := by omega
      rw [h3]
      rfl

/-- C8: `get_filehandler(idx)` returns the handler at global position `idx`
(counting across networks in filelist order) whenever `idx` is in range, and
returns `None` — rather than raising — for every `idx ≥` the total number of
handlers. -/
theorem get_filehandler_global_index :
    (∀ filelist idx,
      get_filehandler filelist idx = (globalFilehandlers filelist)[idx]?) ∧
    (∀ filelist idx, (globalFilehandlers filelist).length ≤ idx →
      get_filehandler filelist idx = none) := by
  have key : ∀ filelist idx,
      get_filehandler filelist idx = (globalFilehandlers filelist)[idx]? := by
    intro filelist idx
    have := getFilehandlerLoop_eq idx filelist 0 (Nat.zero_le idx)
    simpa [get_filehandler] using this
  refine ⟨key, ?_⟩
  intro filelist idx hlen
  rw [key filelist idx]
  exact List.getElem?_eq_none hlen

/-- Witness: a two-network collection evaluated through
`get_filehandler_global_index`: position 4 falls into the second network and
position 6 is out of range and yields `none`. -/
theorem get_filehandler_global_index_witness :
    (get_filehandler [("a", [10, 11, 12]), ("b", [20, 21, 22])] 4 =
      (globalFilehandlers [("a", [10, 11, 12]), ("b", [20, 21, 22])])[4]?) ∧
    ((globalFilehandlers [("a", [10, 11, 12]), ("b", [20, 21, 22])]).length ≤ 6 ∧
      get_filehandler [("a", [10, 11, 12]), ("b", [20, 21, 22])] 6 = none) :=
  ⟨get_filehandler_global_index.1 [("a", [10, 11, 12]), ("b", [20, 21, 22])] 4,
   by decide,
   get_filehandler_global_index.2 [("a", [10, 11, 12]), ("b", [20, 21, 22])] 6 (by decide)⟩

/-! ## Build epilogue of `IsmnFileCollection.build_from_scratch`
(filecollection.py 298-318) -/

/-- What the epilogue of a successful fan-in reports to the caller. -/
structure BuildReport where
  reportedErrorCount : Option Nat
  logLines : List String
deriving DecidableEq, Repr

/-- The error-reporting epilogue of `build_from_scratch`: after the fan-in,
if the combined error list is non-empty the summary message embeds
`len(errors)` and `os.path.join(log_path, log_filename)`, and every error
record is appended to the log artifact.  When `log_path` is `None` (its
default) and errors exist, `os.path.join(None, log_filename)` raises a
`TypeError` which escapes `build_from_scratch`. -/
def buildEpilogue (logPath : Option String) (logFilename : String)
    (errors : List String) : Except String BuildReport :=
  if errors.length > 0 then
    match logPath with
    | none =>
      .error "TypeError: expected str, bytes or os.PathLike object, not NoneType"
    | some _ =>
      .ok { reportedErrorCount := some errors.length,
            logLines := "----- Summary: Erroneous Files -----" :: errors ++
              ["-------------------------------------"] }
  else
    .ok { reportedErrorCount := none, logLines := [] }

/-- C5 (code bug): with the default `log_path=None` and a non-empty error
list the epilogue raises a `TypeError` instead of completing the build,
while with a concrete `log_path` it reports the combined count and appends
every error record; the docstring promises that with `None` no log file is
written and §7 promises the build always completes bar setup failure. -/
theorem buildEpilogue_none_log_path_raises :
    buildEpilogue none "Data.log" ["net/stat/file.stm"] =
      .error "TypeError: expected str, bytes or os.PathLike object, not NoneType" ∧
    buildEpilogue (some "/logs") "Data.log" ["net/stat/file.stm"] =
      .ok { reportedErrorCount := some 1,
            logLines := ["----- Summary: Erroneous Files -----", "net/stat/file.stm",
              "-------------------------------------"] } := by
  constructor <;> rfl

/-! ## Values and extended numeric line used by `check_metadata`
(filehandlers.py 543-592) -/

/-- A scalar metadata value: a string, a number (floats modelled as `ℚ`), or
the NaN that an empty cell of the flat metadata table carries. -/
inductive MVal
  | str (s : String)
  | num (q : ℚ)
  | nan
deriving DecidableEq, Repr

/-- A Python float extended with the IEEE infinities (`-np.inf`, `np.inf`). -/
inductive XF
  | ninf
  | fin (q : ℚ)
  | pinf
deriving DecidableEq, Repr

/-- Ordering of extended floats. -/
def XF.leb : XF → XF → Bool
  | .ninf, _ => true
  | _, .pinf => true
  | .fin a, .fin b => a ≤ b
  | _, _ => false

/-- Modelled from the spec: `Depth` of §3 (`ismn/meta.py` is not in the
sources) — a closed interval `[dstart, dend]` below the surface. -/
structure DepthX where
  dstart : XF
  dend : XF
deriving DecidableEq, Repr

/-- Modelled from the spec: `Depth.encloses(other)` of §3 — this interval
fully contains the other: `dstart ≤ other.dstart` and `other.dend ≤ dend`. -/
def DepthX.encloses (a b : DepthX) : Bool :=
  XF.leb a.dstart b.dstart && XF.leb b.dend a.dend

/-- Modelled from the spec: the key set of `tables.CSV_META_TEMPLATE`
(`ismn/tables.py` is not in the sources); the keys are exactly the static
quantities §4.4 lists and `StaticMetaFile.read_metadata` fills: the four
landcover slots, the two climate slots, and the five soil attributes. -/
def CSV_META_TEMPLATE_KEYS : List String :=
  ["lc_2000", "lc_2005", "lc_2010", "lc_insitu", "climate_KG", "climate_insitu",
   "saturation", "clay_fraction", "sand_fraction", "silt_fraction", "organic_carbon"]

/-- A Python float argument that may be `None`. -/
inductive PyNum
  | none
  | num (x : XF)
deriving DecidableEq, Repr

/-- Outcome of a `check_metadata` call: a returned boolean or an escaping
exception. -/
inductive CMResult
  | ret (b : Bool)
  | valueError (k : String)
  | keyError (k : String)
  | typeError
deriving DecidableEq, Repr

/-- The metadata of a `DataFile` as far as `check_metadata` consults it:
`self.metadata['variable'].val`, `self.metadata['instrument'].depth` and the
values `self.metadata[k].val` of the static keys. -/
structure DataFileMeta where
  variableVal : String
  instrumentDepth : DepthX
  staticVals : List (String × MVal)

/-- The `filter_static_vars` loop of `check_metadata`: `fil_lc_cl` starts as
`[True]`, each key is first looked up in the template key list (an unknown
key raises `ValueError`), then its metadata value is compared; after the
loop `all(fil_lc_cl)` decides the returned boolean.  A key absent from the
file's metadata raises a `KeyError` at `self.metadata[k]`. -/
def cmStaticLoop (meta : DataFileMeta) : List (String × MVal) → Bool → CMResult
  | [], acc => .ret acc
  | (k, v) :: rest, acc =>
    if k ∈ CSV_META_TEMPLATE_KEYS then
      match meta.staticVals.lookup k with
      | some mv => cmStaticLoop meta rest (acc && (mv == v))
      | none => .keyError k
    else .valueError k

/-- `DataFile.check_metadata(variable, min_depth, max_depth,
filter_static_vars)`.  A `None` `min_depth` is replaced by `-np.inf`; a
`None` `max_depth` is replaced by `np.info` — numpy's documentation-printing
function, a typo for `np.inf` — so once the variable check passes,
`Depth(min_depth, max_depth)` compares a float against a function object and
raises a `TypeError`. -/
def check_metadata (meta : DataFileMeta) (var : String)
    (minDepth maxDepth : PyNum)
    (filterStaticVars : Option (List (String × MVal))) : CMResult :=
  let mn : XF := match minDepth with | .none => .ninf | .num x => x
  if meta.variableVal ≠ var then .ret false
  else
    match maxDepth with
    | .none => .typeError
    | .num mx =>
      if ¬(DepthX.mk mn mx).encloses meta.instrumentDepth then .ret false
      else
        match filterStaticVars with
        | none => .ret true
        | some [] => .ret true
        | some fsv => cmStaticLoop meta fsv true

theorem cmStaticLoop_unknown_key (meta : DataFileMeta) :
    ∀ (fsv : List (String × MVal)) (acc : Bool),
      (∀ k ∈ CSV_META_TEMPLATE_KEYS, (meta.staticVals.lookup k).isSome) →
      (∃ kv ∈ fsv, kv.1 ∉ CSV_META_TEMPLATE_KEYS) →
      ∃ k, cmStaticLoop meta fsv acc = .valueError k
  | [], _, _, hbad => absurd hbad (by simp)
  | (k, v) :: rest, acc, hpresent, hbad => by
    by_cases hk : k ∈ CSV_META_TEMPLATE_KEYS
    · have hsome := hpresent k hk
      obtain ⟨mv, hmv⟩ := Option.isSome_iff_exists.mp hsome
      have hrest : ∃ kv ∈ rest, kv.1 ∉ CSV_META_TEMPLATE_KEYS := by
        obtain ⟨kv, hkv, hnot⟩ := hbad
        rcases List.mem_cons.mp hkv with heq | hmem
        · rw [heq] at hnot
          exact absurd hk hnot
        · exact ⟨kv, hmem, hnot⟩
      have ih := cmStaticLoop_unknown_key meta rest (acc && (mv == v)) hpresent hrest
      simpa [cmStaticLoop, hk, hmv] using ih
    · exact ⟨k, by simp [cmStaticLoop, hk]⟩

/-- C9: for a file whose `variable` metadata equals the requested variable
and whose instrument depth is enclosed by the requested depth range,
`check_metadata` raises a `ValueError` whenever `filter_static_vars`
contains a key outside the CSV metadata template keys — it never returns a
boolean for such a call (all template keys being present in the loaded
metadata). -/
theorem check_metadata_unknown_key_value_error
    (meta : DataFileMeta) (var : String) (mn mx : XF)
    (fsv : List (String × MVal))
    (hvar : meta.variableVal = var)
    (hdep : (DepthX.mk mn mx).encloses meta.instrumentDepth = true)
    (hpresent : ∀ k ∈ CSV_META_TEMPLATE_KEYS, (meta.staticVals.lookup k).isSome)
    (hbad : ∃ kv ∈ fsv, kv.1 ∉ CSV_META_TEMPLATE_KEYS) :
    (∃ k, check_metadata meta var (.num mn) (.num mx) (some fsv) = .valueError k) ∧
    ∀ b, check_metadata meta var (.num mn) (.num mx) (some fsv) ≠ .ret b := by
  have hfsv : fsv ≠ [] := by
    rintro rfl
    simp at hbad
  have hloop := cmStaticLoop_unknown_key meta fsv true hpresent hbad
  have heq : check_metadata meta var (.num mn) (.num mx) (some fsv) =
      cmStaticLoop meta fsv true := by
    cases fsv with
    | nil => exact absurd rfl hfsv
    | cons kv rest => simp [check_metadata, hvar, hdep]
  constructor
  · rw [heq]; exact hloop
  · intro b hret
    obtain ⟨k, hk⟩ := hloop
    rw [heq, hk] at hret
    exact CMResult.noConfusion hret

/-- Witness: a concrete file (variable `soil_moisture`, depth `[0, 1]`, all
template keys present) filtered with `{lc_2010: 10, bogus: 1}` evaluated
through `check_metadata_unknown_key_value_error`. -/
theorem check_metadata_unknown_key_value_error_witness :
    ({ variableVal := "soil_moisture",
       instrumentDepth := ⟨.fin 0, .fin 1⟩,
       staticVals := CSV_META_TEMPLATE_KEYS.map (fun k => (k, MVal.num 10)) : DataFileMeta }.variableVal
        = "soil_moisture" ∧
     (DepthX.mk (.fin 0) (.fin 2)).encloses
       ({ variableVal := "soil_moisture",
          instrumentDepth := ⟨.fin 0, .fin 1⟩,
          staticVals := CSV_META_TEMPLATE_KEYS.map (fun k => (k, MVal.num 10)) : DataFileMeta }).instrumentDepth
        = true) ∧
    ((∃ k, check_metadata
        { variableVal := "soil_moisture",
          instrumentDepth := ⟨.fin 0, .fin 1⟩,
          staticVals := CSV_META_TEMPLATE_KEYS.map (fun k => (k, MVal.num 10)) }
        "soil_moisture" (.num (.fin 0)) (.num (.fin 2))
        (some [("lc_2010", MVal.num 10), ("bogus", MVal.num 1)]) = .valueError k) ∧
     ∀ b, check_metadata
        { variableVal := "soil_moisture",
          instrumentDepth := ⟨.fin 0, .fin 1⟩,
          staticVals := CSV_META_TEMPLATE_KEYS.map (fun k => (k, MVal.num 10)) }
        "soil_moisture" (.num (.fin 0)) (.num (.fin 2))
        (some [("lc_2010", MVal.num 10), ("bogus", MVal.num 1)]) ≠ .ret b) :=
  ⟨⟨by decide, by decide⟩,
   check_metadata_unknown_key_value_error _ _ _ _ _ (by decide) (by decide)
     (by decide) ⟨("bogus", MVal.num 1), by decide, by decide⟩⟩

/-- C10 (code bug): passing `max_depth=None` to `check_metadata` does not
substitute `np.inf`: the source assigns `np.info`, numpy's
documentation-printing helper, so as soon as the variable check passes the
depth comparison raises a `TypeError` instead of returning a boolean
(`min_depth=None` alone is correctly replaced by `-np.inf`). -/
theorem check_metadata_max_depth_none_type_error :
    check_metadata
      { variableVal := "soil_moisture",
        instrumentDepth := ⟨.fin 0, .fin 1⟩,
        staticVals := [] }
      "soil_moisture" (.num (.fin 0)) .none none = .typeError ∧
    check_metadata
      { variableVal := "soil_moisture",
        instrumentDepth := ⟨.fin 0, .fin 1⟩,
        staticVals := [] }
      "soil_moisture" .none (.num (.fin 2)) none = .ret true := by
  constructor <;> rfl

/-! ## `IsmnFileCollection.filter_metadata` (old_filecollection.py 468-514) -/

/-- A file handler as `filter_metadata` consults it: the lookup table
`filehandler.metadata[k].val`. -/
def HandlerMeta := List (String × MVal)
deriving DecidableEq

/-- The inner loop of `filter_metadata` for one handler: iterate the filter
dict, raise `ValueError` when a key is not among the handler's metadata
keys, otherwise record whether the value is one of the allowed values, and
finally take `all(flags)`. -/
def handlerFlags : List (String × List MVal) → HandlerMeta → Except String Bool
  | [], _ => .ok true
  | (k, allowed) :: rest, meta =>
    match List.lookup k meta with
    | none => .error (k ++ " is not a valid metadata variable")
    | some v =>
      match handlerFlags rest meta with
      | .ok b => .ok (allowed.contains v && b)
      | .error e => .error e

/-- The mask-building loop of `filter_metadata` over all handlers. -/
def buildMask (filterDict : List (String × List MVal)) :
    List HandlerMeta → Except String (List Bool)
  | [] => .ok []
  | h :: rest =>
    match handlerFlags filterDict h with
    | .error e => .error e
    | .ok b =>
      match buildMask filterDict rest with
      | .error e => .error e
      | .ok m => .ok (b :: m)

/-- `filelist.loc[mask]`: keep the rows whose mask entry is `True`,
preserving order. -/
def applyMask : List HandlerMeta → List Bool → List HandlerMeta
  | h :: t, b :: m => if b then h :: applyMask t m else applyMask t m
  | _, _ => []

/-- `IsmnFileCollection.filter_metadata(filter_dict)` of the older
single-process collection: build a boolean mask by comparing each handler's
metadata against the filter dict and select the masked rows. -/
def filter_metadata (filterDict : List (String × List MVal))
    (filelist : List HandlerMeta) : Except String (List HandlerMeta) :=
  match buildMask filterDict filelist with
  | .error e => .error e
  | .ok mask => .ok (applyMask filelist mask)

/-- The selection predicate in the words of the claim: for every key of the
filter dict the handler's metadata value is contained in that key's set of
allowed values (logical AND across keys). -/
def matchesFilterDict (filterDict : List (String × List MVal))
    (meta : HandlerMeta) : Bool :=
  filterDict.all (fun kv =>
    match List.lookup kv.1 meta with
    | some v => kv.2.contains v
    | none => false)

theorem handlerFlags_eq_matches (filterDict : List (String × List MVal))
    (meta : HandlerMeta)
    (hkeys : ∀ kv ∈ filterDict, (List.lookup kv.1 meta).isSome) :
    handlerFlags filterDict meta = .ok (matchesFilterDict filterDict meta) := by
  induction filterDict with
  | nil => rfl
  | cons kv rest ih =>
    obtain ⟨k, allowed⟩ := kv
    have hsome := hkeys (k, allowed) (List.mem_cons_self _ _)
    obtain ⟨v, hv⟩ := Option.isSome_iff_exists.mp hsome
    have ihr := ih (fun kv hkv => hkeys kv (List.mem_cons_of_mem _ hkv))
    simp [handlerFlags, hv, ihr, matchesFilterDict, List.all_cons]

theorem applyMask_map_filter (p : HandlerMeta → Bool) :
    ∀ l : List HandlerMeta, applyMask l (l.map p) = l.filter p
  | [] => rfl
  | h :: t => by
    by_cases hp : p h
    · simp [applyMask, hp, applyMask_map_filter p t]
    · simp [applyMask, hp, applyMask_map_filter p t, List.filter_cons]

theorem buildMask_eq_map (filterDict : List (String × List MVal)) :
    ∀ filelist : List HandlerMeta,
      (∀ h ∈ filelist, ∀ kv ∈ filterDict, (List.lookup kv.1 h).isSome) →
      buildMask filterDict filelist = .ok (filelist.map (matchesFilterDict filterDict))
  | [], _ => rfl
  | h :: rest, hkeys => by
    have hh := handlerFlags_eq_matches filterDict h
      (hkeys h (List.mem_cons_self _ _))
    have hr := buildMask_eq_map filterDict rest
      (fun g hg kv hkv => hkeys g (List.mem_cons_of_mem _ hg) kv hkv)
    simp [buildMask, hh, hr]

/-- C7: when every handler's metadata carries every key of the filter dict,
`filter_metadata` returns exactly the handlers whose metadata value for
every filter key lies in that key's allowed set (logical AND across keys),
in their original relative order (`List.filter` preserves order). -/
theorem filter_metadata_eq_filter (filterDict : List (String × List MVal))
    (filelist : List HandlerMeta)
    (hkeys : ∀ h ∈ filelist, ∀ kv ∈ filterDict, (List.lookup kv.1 h).isSome) :
    filter_metadata filterDict filelist =
      .ok (filelist.filter (matchesFilterDict filterDict)) := by
  have hmask := buildMask_eq_map filterDict filelist hkeys
  rw [filter_metadata, hmask]
  show Except.ok (applyMask filelist (filelist.map (matchesFilterDict filterDict))) = _
  rw [applyMask_map_filter]

/-- Witness: five handlers filtered with `{lc_2010: 10}`; exactly the two
carrying the value pass, in original order, via
`filter_metadata_eq_filter`. -/
theorem filter_metadata_eq_filter_witness :
    (∀ h ∈ [[("lc_2010", MVal.num 10), ("station", MVal.str "s1")],
            [("lc_2010", MVal.num 20), ("station", MVal.str "s2")],
            [("lc_2010", MVal.num 10), ("station", MVal.str "s3")],
            [("lc_2010", MVal.num 30), ("station", MVal.str "s4")],
            [("lc_2010", MVal.num 40), ("station", MVal.str "s5")]],
      ∀ kv ∈ [("lc_2010", [MVal.num 10])], (List.lookup kv.1 h).isSome) ∧
    filter_metadata [("lc_2010", [MVal.num 10])]
      [[("lc_2010", MVal.num 10), ("station", MVal.str "s1")],
       [("lc_2010", MVal.num 20), ("station", MVal.str "s2")],
       [("lc_2010", MVal.num 10), ("station", MVal.str "s3")],
       [("lc_2010", MVal.num 30), ("station", MVal.str "s4")],
       [("lc_2010", MVal.num 40), ("station", MVal.str "s5")]] =
      .ok ([[("lc_2010", MVal.num 10), ("station", MVal.str "s1")],
            [("lc_2010", MVal.num 20), ("station", MVal.str "s2")],
            [("lc_2010", MVal.num 10), ("station", MVal.str "s3")],
            [("lc_2010", MVal.num 30), ("station", MVal.str "s4")],
            [("lc_2010", MVal.num 40), ("station", MVal.str "s5")]].filter
        (matchesFilterDict [("lc_2010", [MVal.num 10])])) :=
  ⟨by decide,
   filter_metadata_eq_filter [("lc_2010", [MVal.num 10])] _ (by decide)⟩

/-! ## `_read_station_dir` (filecollection.py 45-132) -/

/-- One `.stm` file of a station folder as the scan loop sees it.
`constructs` records whether `DataFile(root, file_path, temp_root)` — which
performs dialect detection and metadata extraction — succeeds;
`postOk` records whether the subsequent statements
`f.metadata.merge(station_meta, ...)`,
`f.metadata.best_meta_for_depth(...)` and the required-key lookups
`f.metadata["instrument"/"network"/"station"]` all succeed (the merge and
reconciliation live in the missing `ismn/meta.py`, so their outcome is
abstracted to a boolean).  `net`/`stat` are the values the lookups yield on
success. -/
structure SensorFile where
  path : String
  net : Nat
  stat : Nat
  constructs : Bool
  postOk : Bool
deriving DecidableEq, Repr

/-- The `for file_path in data_files` loop of `_read_station_dir`.  Only the
`DataFile(...)` construction is inside the `try/except Exception` block: a
construction failure logs the error, appends the path to `erroneous_files`
and continues with the next file, while an exception in the merge /
depth-reconciliation statements after the `except` block propagates out of
the loop (`Except.error`), abandoning the remaining files. -/
def processDataFiles : List SensorFile → Except String (List (Nat × Nat × String) × List String)
  | [] => .ok ([], [])
  | f :: rest =>
    if ¬f.constructs then
      match processDataFiles rest with
      | .ok (fl, errs) => .ok (fl, f.path :: errs)
      | .error m => .error m
    else if ¬f.postOk then .error f.path
    else
      match processDataFiles rest with
      | .ok (fl, errs) => .ok ((f.net, f.stat, f.path) :: fl, errs)
      | .error m => .error m

/-- Which static metadata the scan attaches to the station's files. -/
inductive MetaSource
  | fromCsv
  | defaults
deriving DecidableEq, Repr

/-- A station folder as `_read_station_dir` sees it. -/
structure StationDir where
  rootPath : String
  statDir : String
  csvs : List String
  files : List SensorFile
deriving DecidableEq, Repr

/-- What a finished station scan returns: the `(network, station, handler)`
triples, the `erroneous_files` list, the warnings logged, and which static
metadata was used. -/
structure ScanResult where
  filelist : List (Nat × Nat × String)
  errors : List String
  warnings : List String
  metaUsed : MetaSource
deriving DecidableEq, Repr

/-- `os.path.join(str(root.path), str(stat_dir), str(_csv))`. -/
def joinPath3 (a b c : String) : String := a ++ "/" ++ b ++ "/" ++ c

/-- The static-metadata phase of `_read_station_dir`.  With zero csv files,
line 67 raises an `IsmnFileError` that the `except` clause catches: a
warning is logged, the `CSV_META_TEMPLATE` defaults are substituted, and the
`*missing*` path is appended to `erroneous_files`.  With at least one csv
file (after a warning when there are several), line 77 calls
`StaticMetaFile(root, csv[0], load_metadata=True, temp_root=temp_root)` —
but `StaticMetaFile.__init__` of the checked-in `filehandlers.py` (line 94)
accepts no `load_metadata` keyword and sets no `.metadata` attribute, so the
call raises a `TypeError` that `except const.IsmnFileError` does not catch:
the station scan aborts before the file loop (the multiple-csv warning
already written to the log is lost to the caller, like every collected list,
so it is not returned here). -/
def readCsvPhase (d : StationDir) : Except String (MetaSource × List String × List String) :=
  match d.csvs with
  | [] =>
    .ok (.defaults, [joinPath3 d.rootPath d.statDir "*missing*"],
      ["Error loading static meta file, using placeholder metadata"])
  | c :: _ =>
    .error ("TypeError: StaticMetaFile.__init__ got an unexpected keyword " ++
      "argument load_metadata: " ++ joinPath3 d.rootPath d.statDir c)

/-- `_read_station_dir`: static-metadata phase, then the per-file loop; the
csv-phase error records precede the per-file error records in
`erroneous_files`. -/
def readStationDir (d : StationDir) : Except String ScanResult :=
  match readCsvPhase d with
  | .error m => .error m
  | .ok (ms, errs0, warns) =>
    match processDataFiles d.files with
    | .error m => .error m
    | .ok (fl, errs) => .ok ⟨fl, errs0 ++ errs, warns, ms⟩

/-- The triples of the files that survive the scan when every post phase
succeeds: the construction-successful files in order. -/
def scanTriples (files : List SensorFile) : List (Nat × Nat × String) :=
  (files.filter (fun f => f.constructs)).map (fun f => (f.net, f.stat, f.path))

/-- The error records of the loop when every post phase succeeds: the paths
of the files whose construction raised, in order. -/
def scanErrors (files : List SensorFile) : List String :=
  (files.filter (fun f => !f.constructs)).map (fun f => f.path)

/-- C3 counterexample: a station folder — with zero attribute files, the one
static-metadata path that reaches the file loop in the checked-in sources —
holding two files whose `DataFile` construction succeeds, where the first
file's merge / depth-reconciliation phase raises (for example a required key
missing after depth resolution).  The claim predicts an error record for
`f1` and a processed sibling `f2`; the scan instead aborts with the
uncaught exception, and `f2` is never processed. -/
theorem readStationDir_post_failure_aborts :
    readStationDir
      { rootPath := "root", statDir := "net/stat", csvs := [],
        files := [{ path := "f1", net := 0, stat := 0, constructs := true, postOk := false },
                  { path := "f2", net := 0, stat := 0, constructs := true, postOk := true }] } =
      .error "f1" := by
  rfl

/-- C3 amended: a failure raised during `DataFile` construction (dialect
detection and metadata extraction) appends an error record for that file and
does not prevent the remaining sibling files from being processed; but a
failure during the subsequent merge with static metadata or depth
reconciliation (including a required key missing after depth resolution) is
outside the `try/except` and aborts the remaining files of the station scan,
propagating to the task boundary. -/
theorem readStationDir_error_isolation :
    (∀ files : List SensorFile, (∀ f ∈ files, f.postOk = true) →
      processDataFiles files = .ok (scanTriples files, scanErrors files)) ∧
    (∀ (pre : List SensorFile) (f : SensorFile) (post : List SensorFile),
      (∀ g ∈ pre, g.postOk = true) → f.constructs = true → f.postOk = false →
      processDataFiles (pre ++ f :: post) = .error f.path) := by
  constructor
  · intro files
    induction files with
    | nil => intro _; rfl
    | cons g rest ih =>
      intro hall
      have hg := hall g (List.mem_cons_self _ _)
      have ihr := ih (fun x hx => hall x (List.mem_cons_of_mem _ hx))
      by_cases hc : g.constructs
      · simp [processDataFiles, hc, hg, ihr, scanTriples, scanErrors]
      · simp [processDataFiles, hc, ihr, scanTriples, scanErrors]
  · intro pre f post hpre hfc hfp
    induction pre with
    | nil => simp [processDataFiles, hfc, hfp]
    | cons g rest ih =>
      have hg := hpre g (List.mem_cons_self _ _)
      have ihr := ih (fun x hx => hpre x (List.mem_cons_of_mem _ hx))
      by_cases hc : g.constructs
      · simp [processDataFiles, hc, hg, ihr]
      · simp [processDataFiles, hc, ihr]

/-- Witness: one construction failure among three files via
`readStationDir_error_isolation`: the failing file becomes an error record
and both siblings are kept. -/
theorem readStationDir_error_isolation_witness :
    (∀ f ∈ [{ path := "g1", net := 1, stat := 2, constructs := true, postOk := true },
            { path := "g2", net := 1, stat := 2, constructs := false, postOk := true },
            { path := "g3", net := 1, stat := 2, constructs := true, postOk := true : SensorFile }],
      f.postOk = true) ∧
    processDataFiles
      [{ path := "g1", net := 1, stat := 2, constructs := true, postOk := true },
       { path := "g2", net := 1, stat := 2, constructs := false, postOk := true },
       { path := "g3", net := 1, stat := 2, constructs := true, postOk := true }] =
      .ok (scanTriples
            [{ path := "g1", net := 1, stat := 2, constructs := true, postOk := true },
             { path := "g2", net := 1, stat := 2, constructs := false, postOk := true },
             { path := "g3", net := 1, stat := 2, constructs := true, postOk := true }],
           scanErrors
            [{ path := "g1", net := 1, stat := 2, constructs := true, postOk := true },
             { path := "g2", net := 1, stat := 2, constructs := false, postOk := true },
             { path := "g3", net := 1, stat := 2, constructs := true, postOk := true }]) :=
  ⟨by decide,
   readStationDir_error_isolation.1
     [{ path := "g1", net := 1, stat := 2, constructs := true, postOk := true },
      { path := "g2", net := 1, stat := 2, constructs := false, postOk := true },
      { path := "g3", net := 1, stat := 2, constructs := true, postOk := true }]
     (by decide)⟩

/-- C6 counterexample: a station folder with zero attribute files and one
well-formed sensor file.  The scan does succeed with the default static
metadata and a warning, but — against the claim — it appends the
`*missing*` csv path to the error records it returns. -/
theorem readStationDir_missing_csv_error_record :
    readStationDir
      { rootPath := "root", statDir := "net/stat",
        csvs := [],
        files := [{ path := "f1", net := 0, stat := 0, constructs := true, postOk := true }] } =
      .ok { filelist := [(0, 0, "f1")],
            errors := ["root/net/stat/*missing*"],
            warnings := ["Error loading static meta file, using placeholder metadata"],
            metaUsed := .defaults } := by
  rfl

/-- C6 amended: for every station folder with zero attribute files the scan
substitutes the all-default static metadata template, records a warning, and
— diverging from the claim — also appends the `*missing*` attribute path as
an entry of the error records returned by the scan; the sensor files are
then processed exactly as usual. -/
theorem readStationDir_missing_csv (d : StationDir) (h : d.csvs = []) :
    readStationDir d =
      (processDataFiles d.files).map (fun r =>
        { filelist := r.1,
          errors := joinPath3 d.rootPath d.statDir "*missing*" :: r.2,
          warnings := ["Error loading static meta file, using placeholder metadata"],
          metaUsed := .defaults }) := by
  rw [readStationDir, readCsvPhase, h]
  cases hp : processDataFiles d.files with
  | error m => rfl
  | ok r => rfl

/-- Witness: a concrete zero-csv station evaluated through
`readStationDir_missing_csv`. -/
theorem readStationDir_missing_csv_witness :
    ({ rootPath := "r", statDir := "n/s", csvs := [],
       files := [{ path := "a.stm", net := 3, stat := 4, constructs := true,
                   postOk := true }] : StationDir }.csvs = []) ∧
    readStationDir
      { rootPath := "r", statDir := "n/s", csvs := [],
        files := [{ path := "a.stm", net := 3, stat := 4, constructs := true,
                    postOk := true }] } =
      (processDataFiles
        [{ path := "a.stm", net := 3, stat := 4, constructs := true, postOk := true }]).map
        (fun r =>
          { filelist := r.1,
            errors := joinPath3 "r" "n/s" "*missing*" :: r.2,
            warnings := ["Error loading static meta file, using placeholder metadata"],
            metaUsed := .defaults }) :=
  ⟨rfl,
   readStationDir_missing_csv
     { rootPath := "r", statDir := "n/s", csvs := [],
       files := [{ path := "a.stm", net := 3, stat := 4, constructs := true,
                   postOk := true }] } rfl⟩

/-! ## Fan-in of `IsmnFileCollection.build_from_scratch`
(filecollection.py 273-296)

Network and station names are abstracted as naturals; a handler is
identified by a natural id (two distinct ids stand for two distinct
`DataFile` objects, each carrying its own per-file metadata). -/

/-- A `(network, station, filehandler)` triple returned by a station-scan
task. -/
abbrev Triple := Nat × Nat × Nat

/-- The sort key `itemgetter(0, 1)`: the `(network, station)` pair. -/
def tripleKey (t : Triple) : Nat × Nat := (t.1, t.2.1)

/-- Lexicographic order on `(network, station)` keys. -/
def keyLe (a b : Nat × Nat) : Prop := a.1 < b.1 ∨ (a.1 = b.1 ∧ a.2 ≤ b.2)

instance (a b : Nat × Nat) : Decidable (keyLe a b) := by
  unfold keyLe
  infer_instance

/-- The comparison `elements.sort(key=itemgetter(0, 1))` sorts with: compare
triples by their `(network, station)` keys only. -/
def le3 (a b : Triple) : Prop := keyLe (tripleKey a) (tripleKey b)

instance (a b : Triple) : Decidable (le3 a b) := by
  unfold le3
  infer_instance

instance : IsTrans Triple le3 :=
  ⟨fun a b c h1 h2 => by
    unfold le3 keyLe at h1 h2 ⊢
    omega⟩

instance : IsTotal Triple le3 :=
  ⟨fun a b => by
    unfold le3 keyLe
    omega⟩

theorem keyLe_refl (x : Nat × Nat) : keyLe x x := Or.inr ⟨rfl, Nat.le_refl _⟩

theorem keyLe_antisymm {x y : Nat × Nat} (h1 : keyLe x y) (h2 : keyLe y x) :
    x = y := by
  obtain ⟨x1, x2⟩ := x
  obtain ⟨y1, y2⟩ := y
  unfold keyLe at h1 h2
  simp only [Prod.mk.injEq]
  omega

/-- `elements = []; for r in res: elements += r[0]` — concatenation of the
task results in completion order. -/
def collectElements (res : List (List Triple)) : List Triple := res.flatten

/-- `elements.sort(key=itemgetter(0, 1))` — Python's list sort is stable, so
the stable `insertionSort` models it. -/
def sortStep (elements : List Triple) : List Triple := List.insertionSort le3 elements

/-- `filelist[net].append(fh)` preceded by `if net not in filelist` over an
ordered dict kept as an ordered association list. -/
def addToGroup : List (Nat × List Nat) → Nat → Nat → List (Nat × List Nat)
  | [], net, fh => [(net, [fh])]
  | (n, fs) :: rest, net, fh =>
    if n = net then (n, fs ++ [fh]) :: rest
    else (n, fs) :: addToGroup rest net fh

/-- The grouping loop of `build_from_scratch`: insert every sorted triple
into the ordered network→handlers mapping. -/
def groupByNet (l : List Triple) : List (Nat × List Nat) :=
  l.foldl (fun acc t => addToGroup acc t.1 t.2.2) []

/-- The fan-in step of `build_from_scratch`: concatenate the task results in
completion order, sort stably by `(network, station)` and group by
network. -/
def fanIn (res : List (List Triple)) : List (Nat × List Nat) :=
  groupByNet (sortStep (collectElements res))

/-- Two task results never produce the same `(network, station)` key. -/
def keysDisjoint (l1 l2 : List Triple) : Prop :=
  ∀ a ∈ l1, ∀ b ∈ l2, tripleKey a ≠ tripleKey b

instance (l1 l2 : List Triple) : Decidable (keysDisjoint l1 l2) := by
  unfold keysDisjoint
  infer_instance

theorem keysDisjoint_symm {l1 l2 : List Triple} (h : keysDisjoint l1 l2) :
    keysDisjoint l2 l1 :=
  fun b hb a ha => (h a ha b hb).symm

theorem filter_orderedInsert_of_pos (p : Triple → Bool) (a : Triple)
    (l : List Triple) (ha : p a = true)
    (hmono : ∀ b ∈ l, p b = true → le3 a b) :
    (l.orderedInsert le3 a).filter p = a :: l.filter p := by
  induction l with
  | nil => simp [List.orderedInsert, ha]
  | cons b t ih =>
    by_cases hab : le3 a b
    · rw [List.orderedInsert, if_pos hab]
      simp [List.filter_cons, ha]
    · rw [List.orderedInsert, if_neg hab]
      have hpb : p b = false := by
        cases hpb : p b with
        | false => rfl
        | true => exact absurd (hmono b (List.mem_cons_self _ _) hpb) hab
      have ihr := ih (fun c hc hpc => hmono c (List.mem_cons_of_mem _ hc) hpc)
      simp [List.filter_cons, hpb, ihr]

theorem filter_orderedInsert_of_neg (p : Triple → Bool) (a : Triple)
    (l : List Triple) (ha : p a = false) :
    (l.orderedInsert le3 a).filter p = l.filter p := by
  induction l with
  | nil => simp [List.orderedInsert, ha]
  | cons b t ih =>
    by_cases hab : le3 a b
    · rw [List.orderedInsert, if_pos hab]
      simp [List.filter_cons, ha]
    · rw [List.orderedInsert, if_neg hab]
      simp [List.filter_cons, ih]

/-- Stability of the sort step, observed through a filter selecting one
equivalence class of the sort key: the selected subsequence is unchanged. -/
theorem filter_sortStep (p : Triple → Bool)
    (hcls : ∀ a b, p a = true → p b = true → le3 a b) :
    ∀ l : List Triple, (sortStep l).filter p = l.filter p := by
  intro l
  induction l with
  | nil => rfl
  | cons a t ih =>
    rw [sortStep] at ih
    show ((List.insertionSort le3 t).orderedInsert le3 a).filter p = _
    cases hpa : p a with
    | true =>
      rw [filter_orderedInsert_of_pos p a _ hpa
        (fun b _ hpb => hcls a b hpa hpb)]
      rw [ih]
      simp [List.filter_cons, hpa]
    | false =>
      rw [filter_orderedInsert_of_neg p a _ hpa, ih]
      simp [List.filter_cons, hpa]

/-- Two lists sorted by the `(network, station)` key whose per-key filtered
subsequences agree are equal. -/
theorem sorted_eq_of_key_filters :
    ∀ {l1 l2 : List Triple}, List.Sorted le3 l1 → List.Sorted le3 l2 →
      (∀ k : Nat × Nat, l1.filter (fun t => tripleKey t = k) =
        l2.filter (fun t => tripleKey t = k)) →
      l1 = l2
  | [], [], _, _, _ => rfl
  | [], b :: t2, _, _, hf => by
    have h := hf (tripleKey b)
    rw [List.filter_nil, List.filter_cons_of_pos (by simp)] at h
    exact absurd h (by simp)
  | a :: t1, [], _, _, hf => by
    have h := hf (tripleKey a)
    rw [List.filter_nil, List.filter_cons_of_pos (by simp)] at h
    exact absurd h (by simp)
  | a :: t1, b :: t2, hs1, hs2, hf => by
    have hrel1 := (List.sorted_cons.mp hs1).1
    have hrel2 := (List.sorted_cons.mp hs2).1
    have hab : a = b := by
      by_cases hk : tripleKey b = tripleKey a
      · have h := hf (tripleKey a)
        rw [List.filter_cons_of_pos (by simp),
          List.filter_cons_of_pos (by simp [hk])] at h
        exact ((List.cons.injEq _ _ _ _).mp h).1
      · exfalso
        have hfa := hf (tripleKey a)
        have hfb := hf (tripleKey b)
        rw [List.filter_cons_of_pos (by simp),
          List.filter_cons_of_neg (by simp [hk])] at hfa
        rw [List.filter_cons_of_neg (by simp; exact fun he => hk he.symm),
          List.filter_cons_of_pos (by simp)] at hfb
        have hat2 : a ∈ t2 := by
          have hmem : a ∈ t2.filter (fun t => tripleKey t = tripleKey a) := by
            rw [← hfa]
            exact List.mem_cons_self _ _
          exact (List.mem_filter.mp hmem).1
        have hbt1 : b ∈ t1 := by
          have hmem : b ∈ t1.filter (fun t => tripleKey t = tripleKey b) := by
            rw [hfb]
            exact List.mem_cons_self _ _
          exact (List.mem_filter.mp hmem).1
        have h1 : le3 a b := hrel1 b hbt1
        have h2 : le3 b a := hrel2 a hat2
        exact hk (keyLe_antisymm h2 h1)
    subst hab
    have htails : ∀ k : Nat × Nat, t1.filter (fun t => tripleKey t = k) =
        t2.filter (fun t => tripleKey t = k) := by
      intro k
      have h := hf k
      by_cases hk : tripleKey a = k
      · rw [List.filter_cons_of_pos (by simp [hk]),
          List.filter_cons_of_pos (by simp [hk])] at h
        exact ((List.cons.injEq _ _ _ _).mp h).2
      · rw [List.filter_cons_of_neg (by simp [hk]),
          List.filter_cons_of_neg (by simp [hk])] at h
        exact h
    have ht := sorted_eq_of_key_filters (List.sorted_cons.mp hs1).2
      (List.sorted_cons.mp hs2).2 htails
    rw [ht]

/-- Reordering the task results leaves every per-key filtered subsequence of
the concatenation unchanged, provided distinct tasks have disjoint
`(network, station)` key sets (equal keys can then meet only inside one
task, whose internal order is fixed). -/
theorem filter_flatten_perm (k : Nat × Nat) :
    ∀ {rs' rs : List (List Triple)}, List.Perm rs' rs →
      List.Pairwise keysDisjoint rs →
      rs'.flatten.filter (fun t => tripleKey t = k) =
        rs.flatten.filter (fun t => tripleKey t = k) := by
  intro rs' rs hperm
  induction hperm with
  | nil => intro _; rfl
  | cons x h ih =>
    intro hd
    have hd' := (List.pairwise_cons.mp hd).2
    rw [List.flatten_cons, List.flatten_cons, List.filter_append,
      List.filter_append, ih hd']
  | swap x y l =>
    intro hd
    have hxy : keysDisjoint x y :=
      (List.pairwise_cons.mp hd).1 y (List.mem_cons_self _ _)
    rw [List.flatten_cons, List.flatten_cons, List.flatten_cons,
      List.flatten_cons, List.filter_append, List.filter_append,
      List.filter_append, List.filter_append, ← List.append_assoc,
      ← List.append_assoc]
    by_cases hx : x.filter (fun t => tripleKey t = k) = []
    · rw [hx, List.append_nil, List.nil_append]
    · have hy : y.filter (fun t => tripleKey t = k) = [] := by
        rw [List.filter_eq_nil_iff]
        intro b hb hpb
        obtain ⟨a, ha⟩ := List.exists_mem_of_ne_nil _ hx
        have ha' := List.mem_filter.mp ha
        have hka : tripleKey a = k := by simpa using ha'.2
        have hkb : tripleKey b = k := by simpa using hpb
        exact hxy a ha'.1 b hb (hka.trans hkb.symm)
      rw [hy, List.append_nil, List.nil_append]
  | trans h1 h2 ih1 ih2 =>
    intro hd
    have hd2 := (h2.pairwise_iff (fun h => keysDisjoint_symm h)).mpr hd
    exact (ih1 hd2).trans (ih2 hd)

/-- C2 counterexample: two station-scan tasks whose triples carry the same
`(network, station)` key (two folders whose files embed the same names).
The task lists are permutations of one another — two completion orders of
the same scan — yet the fan-in groups the handlers in different orders, so
the index is not independent of task completion order as claimed. -/
theorem fanIn_completion_order_leaks :
    List.Perm [[((0 : Nat), (0 : Nat), (2 : Nat))], [((0 : Nat), (0 : Nat), (1 : Nat))]]
      [[((0 : Nat), (0 : Nat), (1 : Nat))], [((0 : Nat), (0 : Nat), (2 : Nat))]] ∧
    fanIn [[((0 : Nat), (0 : Nat), (2 : Nat))], [((0 : Nat), (0 : Nat), (1 : Nat))]] ≠
      fanIn [[((0 : Nat), (0 : Nat), (1 : Nat))], [((0 : Nat), (0 : Nat), (2 : Nat))]] :=
  ⟨List.Perm.swap _ _ _, by decide⟩

/-- C2 amended: the fan-in of `build_from_scratch` sorts the collected
triples stably by `(network, station)` and groups them into the ordered
network mapping; the result is independent of worker count and task
completion order (any permutation of the task results) provided distinct
station-scan tasks produce disjoint `(network, station)` key sets — as when
every scanned folder yields a unique station; when two tasks share a key,
the stable sort keeps those triples in completion order and the grouping can
differ. -/
theorem fanIn_order_independent {rs rs' : List (List Triple)}
    (hperm : List.Perm rs' rs) (hdisj : List.Pairwise keysDisjoint rs) :
    fanIn rs' = fanIn rs ∧ List.Sorted le3 (sortStep (collectElements rs)) := by
  have hsorted' : List.Sorted le3 (sortStep (collectElements rs')) :=
    List.sorted_insertionSort le3 _
  have hsorted : List.Sorted le3 (sortStep (collectElements rs)) :=
    List.sorted_insertionSort le3 _
  have hcls : ∀ (k : Nat × Nat) (a b : Triple),
      decide (tripleKey a = k) = true → decide (tripleKey b = k) = true → le3 a b := by
    intro k a b ha hb
    have ha' : tripleKey a = k := of_decide_eq_true ha
    have hb' : tripleKey b = k := of_decide_eq_true hb
    show keyLe (tripleKey a) (tripleKey b)
    rw [ha', hb']
    exact keyLe_refl k
  have hfilters : ∀ k : Nat × Nat,
      (sortStep (collectElements rs')).filter (fun t => tripleKey t = k) =
        (sortStep (collectElements rs)).filter (fun t => tripleKey t = k) := by
    intro k
    rw [filter_sortStep _ (hcls k), filter_sortStep _ (hcls k)]
    exact filter_flatten_perm k hperm hdisj
  have heq : sortStep (collectElements rs') = sortStep (collectElements rs) :=
    sorted_eq_of_key_filters hsorted' hsorted hfilters
  exact ⟨congrArg groupByNet heq, hsorted⟩

/-- Witness: two tasks with distinct `(network, station)` keys taken in both
completion orders through `fanIn_order_independent`. -/
theorem fanIn_order_independent_witness :
    (List.Perm [[((1 : Nat), (0 : Nat), (2 : Nat))], [((0 : Nat), (0 : Nat), (1 : Nat))]]
       [[((0 : Nat), (0 : Nat), (1 : Nat))], [((1 : Nat), (0 : Nat), (2 : Nat))]] ∧
     List.Pairwise keysDisjoint
       [[((0 : Nat), (0 : Nat), (1 : Nat))], [((1 : Nat), (0 : Nat), (2 : Nat))]]) ∧
    (fanIn [[((1 : Nat), (0 : Nat), (2 : Nat))], [((0 : Nat), (0 : Nat), (1 : Nat))]] =
       fanIn [[((0 : Nat), (0 : Nat), (1 : Nat))], [((1 : Nat), (0 : Nat), (2 : Nat))]] ∧
     List.Sorted le3 (sortStep (collectElements
       [[((0 : Nat), (0 : Nat), (1 : Nat))], [((1 : Nat), (0 : Nat), (2 : Nat))]]))) :=
  ⟨⟨List.Perm.swap _ _ _, by decide⟩,
   fanIn_order_independent (List.Perm.swap _ _ _) (by decide)⟩

/-! ## Serialization round trip (`to_metadata_csv` /
`from_metadata_df`, filecollection.py 322-378 and 421-454) -/

/-- One metadata variable of a file handler after reconciliation: a name, a
value and an optional depth interval (floats as `ℚ`). -/
structure MetaVarM where
  name : String
  val : MVal
  depth : Option (ℚ × ℚ)
deriving DecidableEq, Repr

/-- A `DataFile` as the round trip sees it; `readFromArchive` records
whether constructing it read the file's bytes from the archive. -/
structure DFile where
  filePath : String
  fileType : String
  metadata : List MetaVarM
  readFromArchive : Bool
deriving DecidableEq, Repr

/-- The archive, abstracted: `none` for a path the archive does not contain,
otherwise what dialect detection and metadata extraction would yield for the
file. -/
def Archive := String → Option (List MetaVarM)

/-- `metadata[name]`: the first variable carrying the name. -/
def findByName (n : String) (l : List MetaVarM) : Option MetaVarM :=
  l.find? (fun v => v.name = n)

/-- The serialized `(depth_from, depth_to, value)` cell triple of one
metadata variable; `none` is the NaN a depth-less variable leaves in its
depth cells (`dropna=False`, `fillna(np.nan)`). -/
def varTriple (v : MetaVarM) : Option ℚ × Option ℚ × MVal :=
  match v.depth with
  | some (a, b) => (some a, some b, v.val)
  | none => (none, none, v.val)

/-- Modelled from the spec: `MetaVar.from_tuple` (`ismn/meta.py` is not in
the sources) — rebuild a variable from `(name, val, depth_from, depth_to)`;
a NaN depth pair means a depth-less variable, and an all-NaN cell (a column
this handler never carried, padded in by the column union of `pd.concat`)
becomes a depth-less variable whose value is NaN. -/
def varOfCell (name : String) (c : Option (Option ℚ × Option ℚ × MVal)) : MetaVarM :=
  match c with
  | some (some a, some b, v) => { name := name, val := v, depth := some (a, b) }
  | some (_, _, v) => { name := name, val := v, depth := none }
  | none => { name := name, val := MVal.nan, depth := none }

/-- String order for the sorted column index of the flat table. -/
def strLe (a b : String) : Prop := a ≤ b

instance (a b : String) : Decidable (strLe a b) := by
  unfold strLe
  infer_instance

/-- The column index `pd.concat(dfs, axis=0, sort=True)` produces: the union
of the metadata variable names of all handlers, sorted; a handler missing a
column is padded with NaN cells in that column. -/
def unionCols (hs : List DFile) : List String :=
  List.insertionSort strLe ((hs.map (fun h => h.metadata.map MetaVarM.name)).flatten).dedup

/-- A row of the flat metadata table: one cell per (sorted, union) column —
`none` standing for the NaN padding of a column the handler does not carry —
followed by the trailing `file_path` and `file_type` columns. -/
structure MetaRow where
  cells : List (String × Option (Option ℚ × Option ℚ × MVal))
  file_path : String
  file_type : String
deriving DecidableEq, Repr

/-- Modelled from the spec: `metadata.to_pd(True, dropna=False)` emits one
value/depth column triple per metadata variable; `to_metadata_csv` appends
the `file_path`/`file_type` columns and `pd.concat(dfs, axis=0, sort=True)`
aligns every handler on the sorted union of columns, padding missing ones
with NaN.  Decimal text formatting of the numbers is abstracted (the spec
accepts its bounded tolerance). -/
def handlerRow (cols : List String) (h : DFile) : MetaRow :=
  { cells := cols.map (fun n => (n, (findByName n h.metadata).map varTriple)),
    file_path := h.filePath,
    file_type := h.fileType }

/-- `to_metadata_csv`: one row per handler, in `iter_filehandlers()` order,
all sharing the union column index. -/
def to_metadata_rows (hs : List DFile) : List MetaRow :=
  hs.map (handlerRow (unionCols hs))

/-- The keyword arguments of the `DataFile(...)` call `from_metadata_df`
makes per row (filecollection.py 357-364). -/
def fromMetadataDfCallKwargs : List String :=
  ["root", "file_path", "load_metadata", "temp_root", "verify_filepath", "verify_temp_root"]

/-- The parameters `DataFile.__init__` accepts in the checked-in
`filehandlers.py` (line 261): `root, file_path, load_metadata, static_meta,
temp_root`. -/
def dataFileInitParams : List String :=
  ["root", "file_path", "load_metadata", "static_meta", "temp_root"]

/-- The body of `DataFile.__init__` (filehandlers.py 261-271 with the
inherited `IsmnFile.__init__`): the containment check `file_path not in
root` raises `IOError` unconditionally; then, with `load_metadata=True`,
metadata is extracted from the file, while with `load_metadata=False` the
metadata dict stays empty, `file_type` stays `'undefined'` and the file's
bytes are never read. -/
def DataFile_init (archive : Archive) (path : String) (loadMetadata : Bool) :
    Except String DFile :=
  match archive path with
  | none => .error ("IOError: Archive does not contain file: " ++ path)
  | some contents =>
    if loadMetadata then
      .ok { filePath := path, fileType := "undefined",
            metadata := contents, readFromArchive := true }
    else
      .ok { filePath := path, fileType := "undefined",
            metadata := [], readFromArchive := false }

/-- The per-row reconstruction of `from_metadata_df`: the `DataFile(root=…,
file_path=…, load_metadata=False, temp_root=…, verify_filepath=False,
verify_temp_root=False)` call first binds its keyword arguments against
`DataFile.__init__`; a keyword the signature does not accept raises
`TypeError` before the constructor body runs.  Were binding to succeed, the
constructor body would run with `load_metadata=False` and the handler's
`metadata` and `file_type` would then be assigned from the row. -/
def rowToFile (archive : Archive) (row : MetaRow) : Except String DFile :=
  if ∀ k ∈ fromMetadataDfCallKwargs, k ∈ dataFileInitParams then
    match DataFile_init archive row.file_path false with
    | .error e => .error e
    | .ok f =>
      .ok { f with metadata := row.cells.map (fun c => varOfCell c.1 c.2),
                   fileType := row.file_type }
  else
    .error "TypeError: __init__() got an unexpected keyword argument verify_filepath"

/-- `from_metadata_df` over all rows: the loop aborts at the first raising
row. -/
def from_metadata_rows (archive : Archive) : List MetaRow → Except String (List DFile)
  | [] => .ok []
  | r :: rest =>
    match rowToFile archive r with
    | .error e => .error e
    | .ok f =>
      match from_metadata_rows archive rest with
      | .error e => .error e
      | .ok fs => .ok (f :: fs)

/-- Concrete handlers for evaluating the round trip. -/
def rtHandlers : List DFile :=
  [{ filePath := "n/s/a.stm", fileType := "ceop_sep",
     metadata := [{ name := "variable", val := MVal.str "soil_moisture",
                    depth := some (0, 1) },
                  { name := "network", val := MVal.str "NET", depth := none }],
     readFromArchive := true },
   { filePath := "n/s/b.stm", fileType := "header_values",
     metadata := [{ name := "variable", val := MVal.str "precipitation",
                    depth := some (0, 2) },
                  { name := "lc_2010", val := MVal.num 10, depth := none }],
     readFromArchive := true }]

/-- An archive containing both handler paths. -/
def rtArchiveA : Archive := fun _ => some []

/-- C4 (code bug): `from_metadata_df` passes `verify_filepath=False` and
`verify_temp_root=False` to `DataFile.__init__`, which in the checked-in
`filehandlers.py` accepts neither keyword, so reconstructing any non-empty
serialized collection raises `TypeError` on its first row and the round trip
never completes — against the claim (and spec §4.7 and the docstrings of
`from_metadata_df`/`to_metadata_csv`, which promise the reload). -/
theorem metadata_roundtrip_type_error :
    ("verify_filepath" ∈ fromMetadataDfCallKwargs ∧
      "verify_filepath" ∉ dataFileInitParams ∧
      "verify_temp_root" ∈ fromMetadataDfCallKwargs ∧
      "verify_temp_root" ∉ dataFileInitParams) ∧
    from_metadata_rows rtArchiveA (to_metadata_rows rtHandlers) =
      .error "TypeError: __init__() got an unexpected keyword argument verify_filepath" := by
  constructor
  · decide
  · rfl
